import Mathlib

/-!
# Verification of `jobs/job_utils.py`

A shallow embedding of Oppia's `jobs/job_utils.py` — helper functions that
translate between NDB models and Apache Beam datastore entities/queries, and
an in-memory query evaluator (`apply_query_to_models`).

Modelling conventions:

* Python values that can appear as datastore property values are embedded as
  the inductive `Value` (None, integers, strings, keys).  The Python-2 total
  order on mixed types (None below numbers below strings below other objects,
  within a type the native order) is embedded as the total boolean
  order `Value.le`; datastore keys are ordered lexicographically by
  (kind, id, namespace).
* NDB keys are modelled single-level (no ancestor chain): a (kind, id,
  namespace) triple with integer ids.  `key.flat()` is the `[(kind, id)]`
  path; the Beam `Key` keeps that path plus a project id and drops the
  namespace, exactly as `get_beam_entity_from_model` does.
* Fallible Python code (raising `TypeError` / `ValueError` /
  `AttributeError` / `KindError`) is embedded in `Except String`, the error
  string standing for the exception message.
* `isinstance(model, Model)` dispatch is embedded by the `PyObj` type whose
  constructors distinguish a model instance, a model class, and any
  non-model value.
* CPython's `list.sort(key=..., reverse=...)` is a stable sort which
  precomputes `key(x)` for every element before comparing (so a failing key
  lookup raises before any reordering), and `reverse=True` keeps equal
  elements in their original relative order.  It is embedded as tagging each
  model with its sort key (`Except`-valued) followed by `List.mergeSort`,
  which is the stable sort of the Lean core library.
-/

namespace JobUtils

/-- A single-level NDB key: kind, integer id and namespace.  (Datastore ids
may also be string names; the embedding fixes integer ids, which is the shape
exercised by the specification's examples.) -/
structure NdbKey where
  kind : String
  id : Int
  nspace : String
deriving DecidableEq, Repr

/-- Key order: lexicographic by (kind, id, namespace), standing for the
datastore path order on keys.  Packaged through `Lex` products so that
totality and transitivity come from the `LinearOrder` instances. -/
def NdbKey.toLexTriple (k : NdbKey) : Lex (String × Lex (Int × String)) :=
  toLex (k.kind, toLex (k.id, k.nspace))

/-- Boolean comparison on keys. -/
def NdbKey.le (a b : NdbKey) : Bool :=
  decide (a.toLexTriple ≤ b.toLexTriple)

/-- A Python value that can sit in a datastore property, be compared by a
filter, or be returned by `get_model_property`. -/
inductive Value where
  | vNone : Value
  | vInt : Int → Value
  | vStr : String → Value
  | vKey : NdbKey → Value
deriving DecidableEq, Repr

/-- The Python-2 total order on values: `None` below everything, numbers
below strings below keys (cross-type comparison in Python 2 orders by type),
and the native order within each type. -/
def Value.le : Value → Value → Bool
  | .vNone, _ => true
  | _, .vNone => false
  | .vInt i, .vInt j => decide (i ≤ j)
  | .vInt _, _ => true
  | _, .vInt _ => false
  | .vStr s, .vStr t => decide (s ≤ t)
  | .vStr _, _ => true
  | _, .vStr _ => false
  | .vKey a, .vKey b => NdbKey.le a b

/-- An NDB model: its kind (normally the class name, possibly overridden by
`_get_kind`), its key (None until assigned) and its property bag
(`_to_dict()`). -/
structure Model where
  kind : String
  key : Option NdbKey
  props : List (String × Value)
deriving DecidableEq, Repr

/-- A Python argument as seen by the `isinstance` checks of the accessors:
a model instance, a model class, or any other value (carrying its `repr`). -/
inductive PyObj where
  | model : Model → PyObj
  | modelType : String → PyObj
  | nonModel : String → PyObj

/-- `get_model_key`: return `model.key` for a model instance, raise
`TypeError` otherwise.  A key that is `None` is returned as the value
`None`. -/
def get_model_key : PyObj → Except String Value
  | .model m => .ok (match m.key with | some k => .vKey k | none => .vNone)
  | .modelType k => .error ("class " ++ k ++ " is not a model instance")
  | .nonModel d => .error (d ++ " is not a model instance")

/-- `get_model_kind`: return `model._get_kind()` for a model instance or a
model class, raise `TypeError` otherwise. -/
def get_model_kind : PyObj → Except String String
  | .model m => .ok m.kind
  | .modelType k => .ok k
  | .nonModel d => .error (d ++ " is not a model type or instance")

/-- `get_model_id`: `None` if `model.key` is `None`, else `model.key.id()`;
raise `TypeError` on a non-instance. -/
def get_model_id : PyObj → Except String Value
  | .model m => .ok (match m.key with | some k => .vInt k.id | none => .vNone)
  | .modelType k => .error ("class " ++ k ++ " is not a model instance")
  | .nonModel d => .error (d ++ " is not a model instance")

/-- `get_model_property`: `"id"` delegates to `get_model_id`, `"__key__"`
delegates to `get_model_key`, any other name is `getattr(model, name)`
(raising `AttributeError` when the property is absent), and a non-instance
raises `TypeError`. -/
def get_model_property (obj : PyObj) (property_name : String) :
    Except String Value :=
  if property_name = "id" then
    get_model_id obj
  else if property_name = "__key__" then
    get_model_key obj
  else
    match obj with
    | .model m =>
        match m.props.lookup property_name with
        | some v => .ok v
        | none => .error ("model object has no attribute " ++ property_name)
    | .modelType k => .error ("class " ++ k ++ " is not a model instance")
    | .nonModel d => .error (d ++ " is not a model instance")

/-! ### Stable sorting: the lexicographic combination -/

universe u

variable {α : Type u}

/-- Lexicographic combination of two boolean comparisons: order by `p`,
breaking `p`-ties (both `p a b` and `p b a`) by `q`. -/
def lexLe (p q : α → α → Bool) (a b : α) : Bool :=
  if p a b && p b a then q a b else p a b

/-! ### Beam entity and query types, and the converters -/

/-- Apache Beam datastore key: a flat `(kind, id)` path plus a project id
(`beam_datastore_types.Key(model.key.flat(), project=...)`). -/
structure BeamKey where
  path : List (String × Int)
  project : String
deriving DecidableEq, Repr

/-- The terminal kind of the client key obtained from a Beam key
(`beam_key.to_client_key().kind`). -/
def BeamKey.clientKind (k : BeamKey) : String :=
  ((k.path.getLast?).map Prod.fst).getD ""

/-- The terminal identifier of the client key obtained from a Beam key
(`beam_key.to_client_key().id_or_name`). -/
def BeamKey.clientId (k : BeamKey) : Int :=
  ((k.path.getLast?).map Prod.snd).getD 0

/-- Apache Beam datastore entity: a key plus a property bag. -/
structure BeamEntity where
  key : BeamKey
  properties : List (String × Value)
deriving DecidableEq, Repr

/-- `get_beam_entity_from_model`: build a Beam key from the model key's flat
path and the configured project id, and copy the model's full property
dictionary (`model._to_dict()`) into the entity.  Accessing `.flat()` on a
`None` key raises.  `project` stands for the external
`feconf.OPPIA_PROJECT_ID`. -/
def get_beam_entity_from_model (project : String) (model : Model) :
    Except String BeamEntity :=
  match model.key with
  | none => .error "NoneType object has no attribute flat"
  | some k => .ok { key := { path := [(k.kind, k.id)], project := project },
                    properties := model.props }

/-- `get_model_from_beam_entity`: look the client key's kind up in the
kind-to-model-class registry (`Model._lookup_model`, raising `KindError`
when unregistered), and construct a model of that class with the client
key's id and all entity properties.  `registry` stands for the global
kind-to-type registry; construction with an id assigns a key in the default
(empty) namespace. -/
def get_model_from_beam_entity (registry : List String)
    (beam_entity : BeamEntity) : Except String Model :=
  let kind := beam_entity.key.clientKind
  if kind ∈ registry then
    .ok { kind := kind,
          key := some { kind := kind, id := beam_entity.key.clientId,
                        nspace := "" },
          props := beam_entity.properties }
  else
    .error ("No model class found for kind " ++ kind)

/-- An NDB filter node as seen by
`_get_beam_filters_from_ndb_filter_node`'s `isinstance` dispatch: a single
comparison `FilterNode`, a `ConjunctionNode` whose flattened protobuf
filters are `(property, operator, value)` triples, or any other node shape
(`DisjunctionNode`, produced by `!=` and `IN`, or other non-filter nodes).
The protobuf round trip (`_to_pbs`, `_OPERATORS_INVERSE`,
`FromPropertyPb`) is modelled as the identity on the triples it encodes. -/
inductive FilterNode where
  | comparison : String → String → Value → FilterNode
  | conjunction : List (String × String × Value) → FilterNode
  | disjunction : List FilterNode → FilterNode
deriving Repr

/-- The `TypeError` message raised for unsupported filter shapes. -/
def forbiddenFilterMsg : String :=
  "`!=`, `IN`, and `OR` are forbidden filters. To emulate their behavior, use multiple AND queries and flatten them into a single PCollection."

/-- `_get_beam_filters_from_ndb_filter_node`: a `ConjunctionNode` flattens
to its list of comparison triples, a single `FilterNode` to a one-element
list, and every other node shape raises a `TypeError`. -/
def _get_beam_filters_from_ndb_filter_node (filter_node : FilterNode) :
    Except String (List (String × String × Value)) :=
  match filter_node with
  | .conjunction nodes => .ok nodes
  | .comparison p op v => .ok [(p, op, v)]
  | .disjunction _ => .error forbiddenFilterMsg

/-- A datastore order as seen by `_get_beam_order_from_ndb_order`: either a
single `PropertyOrder` (property plus direction, `descending = true` for
`Order.DESCENDING`) or a `CompositeOrder` of such orders. -/
inductive DatastoreOrder where
  | single : String → Bool → DatastoreOrder
  | composite : List (String × Bool) → DatastoreOrder
deriving Repr

/-- `_get_beam_order_from_ndb_order`: each order key becomes a signed
property name, `'-'`-prefixed when descending. -/
def _get_beam_order_from_ndb_order (order : DatastoreOrder) : List String :=
  match order with
  | .single p descending => [(if descending then "-" else "") ++ p]
  | .composite orders => orders.map (fun o => (if o.2 then "-" else "") ++ o.1)

/-- An NDB query descriptor: kind, namespace, filter tree and orders.
`filters`/`orders` are `None` or a (truthy) node object. -/
structure NdbQuery where
  kind : Option String
  nspace : Option String
  filters : Option FilterNode
  orders : Option DatastoreOrder

/-- A Beam query (`beam_datastore_types.Query`): kind, namespace, flattened
filter triples, signed order keys, and limit; each field may be `None`. -/
structure BeamQuery where
  kind : Option String
  nspace : Option String
  filters : Option (List (String × String × Value))
  order : Option (List String)
  limit : Option Nat
deriving DecidableEq, Repr

/-- `get_beam_query_from_ndb_query`: copy kind and namespace, flatten the
filter tree and the orders when present, and, when the kind is absent and no
order was derived, default the order to the single key-ascending order
`('__key__',)`.  The Beam query is constructed without a limit. -/
def get_beam_query_from_ndb_query (query : NdbQuery) :
    Except String BeamQuery := do
  let filters ← match query.filters with
    | some fn => Except.map some (_get_beam_filters_from_ndb_filter_node fn)
    | none => pure none
  let order0 := match query.orders with
    | some o => some (_get_beam_order_from_ndb_order o)
    | none => none
  let order := if query.kind = none ∧ order0 = none
    then some ["__key__"] else order0
  pure { kind := query.kind, nspace := query.nspace,
         filters := filters, order := order, limit := none }

/-! ### The in-memory query evaluator -/

/-- The five supported comparison operators. -/
inductive CmpOp where
  | lt | le | eq | ge | gt
deriving DecidableEq, Repr

/-- `_get_operator`: map a comparison symbol to its operator, raising
`ValueError` for anything outside the five supported symbols, with the
offending operator echoed in the message. -/
def _get_operator (comp_str : String) : Except String CmpOp :=
  if comp_str = "<" then .ok .lt
  else if comp_str = "<=" then .ok .le
  else if comp_str = "=" then .ok .eq
  else if comp_str = ">=" then .ok .ge
  else if comp_str = ">" then .ok .gt
  else .error ("Unsupported comparison operator: " ++ comp_str)

/-- Apply a comparison operator with the native value ordering
(`operator.lt` and friends on `Value.le`). -/
def CmpOp.apply : CmpOp → Value → Value → Bool
  | .lt, a, b => Value.le a b && !(Value.le b a)
  | .le, a, b => Value.le a b
  | .eq, a, b => decide (a = b)
  | .ge, a, b => Value.le b a
  | .gt, a, b => Value.le b a && !(Value.le a b)

/-- A Python list comprehension `[m for m in l if p(m)]` whose predicate may
raise: evaluated element by element, the first raising element aborts the
whole comprehension. -/
def exceptFilter (p : Model → Except String Bool) :
    List Model → Except String (List Model)
  | [] => .ok []
  | m :: rest => do
      let b ← p m
      let tail ← exceptFilter p rest
      pure (if b then m :: tail else tail)

/-- `all(_get_operator(comp)(get_model_property(m, name), value) for name,
comp, value in query.filters)`: a short-circuiting conjunction; for each
triple the operator is resolved, the property looked up, and the comparison
applied; a `False` comparison stops the remaining triples from being
evaluated. -/
def evalFilters (filters : List (String × String × Value)) (m : Model) :
    Except String Bool :=
  match filters with
  | [] => .ok true
  | (name, comp, value) :: rest => do
      let op ← _get_operator comp
      let pv ← get_model_property (PyObj.model m) name
      if op.apply pv value then evalFilters rest m else pure false

/-- The sort-key check `property_name.startswith('-')`, read off the
character data. -/
def strStartsDash (s : String) : Bool :=
  match s.data with
  | [] => false
  | c :: _ => decide (c = '-')

/-- The key precomputation done by CPython's `list.sort(key=...)`: evaluate
`get_model_property(model, name)` for every element (the first failing
lookup raises), pairing each model with its sort key. -/
def tagWithSortKey (name : String) :
    List Model → Except String (List (Model × Value))
  | [] => .ok []
  | m :: rest => do
      let v ← get_model_property (PyObj.model m) name
      let tail ← tagWithSortKey name rest
      pure ((m, v) :: tail)

/-- `_sort_by_property_name`: strip a leading `'-'` (which requests
descending order), precompute every model's sort key, and stably sort by it
— ascending via `Value.le` on the keys, descending via the flipped
comparison, which is how CPython's stable `reverse=True` sort orders
ties. -/
def _sort_by_property_name (model_list : List Model)
    (property_name : String) : Except String (List Model) :=
  let reverse := strStartsDash property_name
  let name := if reverse then property_name.drop 1 else property_name
  do
    let tagged ← tagWithSortKey name model_list
    pure ((tagged.mergeSort (fun a b =>
      if reverse then Value.le b.2 a.2 else Value.le a.2 b.2)).map Prod.fst)

/-- The sort stage `for order in reversed(query.order):
_sort_by_property_name(model_list, order)`: the passes for the later-listed
keys run first, the first-listed key's pass runs last (outermost). -/
def sortStage : List String → List Model → Except String (List Model)
  | [], l => .ok l
  | k :: rest, l => do
      let l2 ← sortStage rest l
      _sort_by_property_name l2 k

/-- The kind filter `if query.kind: ... get_model_kind(m) == query.kind`
(a `None` or empty kind is falsy and filters nothing; `get_model_kind` on a
model instance is `Except.ok m.kind`). -/
def kindStage (qkind : Option String) (l : List Model) : List Model :=
  match qkind with
  | some k => if k ≠ "" then l.filter (fun m => decide (m.kind = k)) else l
  | none => l

/-- The namespace filter `if query.namespace: ... m.key.namespace() ==
query.namespace` (a `None` or empty namespace is falsy and filters nothing;
a model whose key is `None` raises `AttributeError`). -/
def namespaceStage (qns : Option String) (l : List Model) :
    Except String (List Model) :=
  match qns with
  | some ns =>
      if ns ≠ "" then
        exceptFilter (fun m =>
          match m.key with
          | some k => .ok (decide (k.nspace = ns))
          | none => .error "NoneType object has no attribute namespace") l
      else .ok l
  | none => .ok l

/-- The predicate filter `if query.filters: ...` (a `None` or empty filter
list is falsy and filters nothing). -/
def filterStage (qfilters : Option (List (String × String × Value)))
    (l : List Model) : Except String (List Model) :=
  match qfilters with
  | some fs => if fs ≠ [] then exceptFilter (evalFilters fs) l else .ok l
  | none => .ok l

/-- The sort step `if query.order: ...` (a `None` or empty order is falsy
and sorts nothing). -/
def orderStage (qorder : Option (List String)) (l : List Model) :
    Except String (List Model) :=
  match qorder with
  | some keys => if keys ≠ [] then sortStage keys l else .ok l
  | none => .ok l

/-- The truncation `if query.limit: del model_list[query.limit:]` (a `None`
or zero limit is falsy and truncates nothing). -/
def limitStage (qlimit : Option Nat) (l : List Model) : List Model :=
  match qlimit with
  | some n => if n ≠ 0 then l.take n else l
  | none => l

/-- The `ValueError` message for a kind-less query without the default
key order. -/
def kindlessValidationMsg : String :=
  "Query(kind=None) must also have order=(__key__,)"

/-- The pipeline of `apply_query_to_models` after its validation check:
kind filter, namespace filter, predicate filter, sort passes, limit
truncation, in that order. -/
def applyStages (query : BeamQuery) (model_list : List Model) :
    Except String (List Model) := do
  let l1 := kindStage query.kind model_list
  let l2 ← namespaceStage query.nspace l1
  let l3 ← filterStage query.filters l2
  let l4 ← orderStage query.order l3
  pure (limitStage query.limit l4)

/-- `apply_query_to_models`: first validate that a kind-less query carries
exactly the `('__key__',)` order (raising `ValueError` otherwise), then run
the filter/sort/limit stages.  The Python function mutates its list argument
in place; the embedding returns the final list value instead. -/
def apply_query_to_models (query : BeamQuery) (model_list : List Model) :
    Except String (List Model) :=
  if query.kind = none ∧ query.order ≠ some ["__key__"] then
    .error kindlessValidationMsg
  else
    applyStages query model_list

/-! ### Derived and specification-side definitions -/

/-- The sort key of a model under an (already stripped) property name:
the value `get_model_property` returns, with `None` standing in for the
raising case (which the sorting theorems' hypotheses exclude). -/
def modelSortValue (m : Model) (name : String) : Value :=
  match get_model_property (PyObj.model m) name with
  | .ok v => v
  | .error _ => .vNone

/-- The effective pairwise comparison of one `_sort_by_property_name` pass
for a signed key: ascending `Value.le` on the stripped property, flipped
when the key is `'-'`-prefixed. -/
def passLe (property_name : String) (a b : Model) : Bool :=
  let reverse := strStartsDash property_name
  let name := if reverse then property_name.drop 1 else property_name
  if reverse then Value.le (modelSortValue b name) (modelSortValue a name)
  else Value.le (modelSortValue a name) (modelSortValue b name)

/-- Written from the specification: the standard lexicographic multi-key
comparison over the signed order keys in listed priority — the first-listed
key dominates, later keys break ties. -/
def specLexLe : List String → Model → Model → Bool
  | [] => fun _ _ => true
  | k :: rest => lexLe (passLe k) (specLexLe rest)

/-- Whether one `(name, comparison, value)` filter triple holds of a model:
resolve the operator, look the property up through `get_model_property`, and
compare; `false` stands for the raising cases, which the conjunction
theorem's hypotheses exclude. -/
def filterHolds (m : Model) (f : String × String × Value) : Bool :=
  match _get_operator f.2.1, get_model_property (PyObj.model m) f.1 with
  | .ok op, .ok pv => op.apply pv f.2.2
  | _, _ => false

/-- The same query with its limit removed. -/
def withoutLimit (q : BeamQuery) : BeamQuery :=
  { q with limit := none }

/-- Parse a signed order key back into a `(property, descending)` pair:
a leading `'-'` requests descending order. -/
def parseOrderKey (s : String) : String × Bool :=
  if strStartsDash s then (s.drop 1, true) else (s, false)

/-- Modelled from the spec: the specification states that the module exposes
a `from_flat_query` operation — the inverse of `get_beam_query_from_ndb_query`
— that reconstructs a native query object from a flat query's kind,
namespace, filters and order, but no such function exists in
`jobs/job_utils.py`.  Following the specification's words: kind and
namespace are copied, the flat filter triples become a conjunction filter
tree, and the signed order keys become a composite order. -/
def get_ndb_query_from_beam_query (q : BeamQuery) : NdbQuery :=
  { kind := q.kind
    nspace := q.nspace
    filters := q.filters.map (fun fs => FilterNode.conjunction fs)
    orders := q.order.map
      (fun keys => DatastoreOrder.composite (keys.map parseOrderKey)) }

/-! ### Concrete data for witnesses and counterexamples

The three entities and the query of the specification's sorting example:
`[(kind A, id 2, score 5), (kind A, id 1, score 5), (kind A, id 3, score 9)]`
queried with `kind="A"`, `order=["-score", "id"]`. -/

/-- Example entity with id 2 and score 5. -/
def exampleModelId2 : Model :=
  { kind := "A", key := some { kind := "A", id := 2, nspace := "" },
    props := [("score", Value.vInt 5)] }

/-- Example entity with id 1 and score 5. -/
def exampleModelId1 : Model :=
  { kind := "A", key := some { kind := "A", id := 1, nspace := "" },
    props := [("score", Value.vInt 5)] }

/-- Example entity with id 3 and score 9. -/
def exampleModelId3 : Model :=
  { kind := "A", key := some { kind := "A", id := 3, nspace := "" },
    props := [("score", Value.vInt 9)] }

/-- The example entity list, in its original order. -/
def exampleModels : List Model :=
  [exampleModelId2, exampleModelId1, exampleModelId3]

/-- The example query `kind="A", order=["-score", "id"]`. -/
def exampleQuery : BeamQuery :=
  { kind := some "A", nspace := none, filters := none,
    order := some ["-score", "id"], limit := none }

/-- A query with a present — but zero — limit. -/
def limitZeroQuery : BeamQuery :=
  { kind := some "A", nspace := none, filters := none,
    order := none, limit := some 0 }

/-- A query with a present nonzero limit. -/
def limitTwoQuery : BeamQuery :=
  { kind := some "A", nspace := none, filters := none,
    order := none, limit := some 2 }

/-- A kind-less query with an order other than `('__key__',)`. -/
def kindlessBadQuery : BeamQuery :=
  { kind := none, nspace := none, filters := none,
    order := some ["id"], limit := none }

/-- A kind-less query with exactly the order `('__key__',)`. -/
def kindlessGoodQuery : BeamQuery :=
  { kind := none, nspace := none, filters := none,
    order := some ["__key__"], limit := none }

/-- An NDB query with neither kind nor orders. -/
def kindlessNdbQuery : NdbQuery :=
  { kind := none, nspace := none, filters := none, orders := none }

/-- The flat query produced for `kindlessNdbQuery`. -/
def defaultedBeamQuery : BeamQuery :=
  { kind := none, nspace := none, filters := none,
    order := some ["__key__"], limit := none }

/-- An NDB query with a single descending order on `score`. -/
def orderedNdbQuery : NdbQuery :=
  { kind := some "A", nspace := none, filters := none,
    orders := some (DatastoreOrder.single "score" true) }

/-- The flat query produced for `orderedNdbQuery`. -/
def orderedBeamQuery : BeamQuery :=
  { kind := some "A", nspace := none, filters := none,
    order := some ["-score"], limit := none }

/-- A flat query carrying one equality filter on `score`. -/
def filteredQuery : BeamQuery :=
  { kind := some "A", nspace := none,
    filters := some [("score", "=", Value.vInt 5)],
    order := none, limit := none }

/-- A query whose namespace is the empty string. -/
def emptyNamespaceQuery : BeamQuery :=
  { kind := some "A", nspace := some "", filters := none,
    order := none, limit := none }

/-- A query whose kind is the empty string (and which therefore must carry
an order to pass validation is not required: kind `""` is not `None`). -/
def emptyKindQuery : BeamQuery :=
  { kind := some "", nspace := none, filters := none,
    order := none, limit := none }

/-- A model without an assigned key. -/
def keylessModel : Model :=
  { kind := "A", key := none, props := [] }

/-! ## Theorems -/

/-! ### The total order on values -/

theorem value_le_total (a b : Value) : Value.le a b || Value.le b a := by
  cases a <;> cases b <;> simp [Value.le, NdbKey.le] <;>
    first
      | exact Int.le_total ..
      | exact le_total ..

theorem value_le_trans (a b c : Value) :
    Value.le a b → Value.le b c → Value.le a c := by
  cases a <;> cases b <;> cases c <;>
    simp [Value.le, NdbKey.le] <;>
    (intro h1 h2; exact le_trans h1 h2)

/-! ### Stable sorting theory

`apply_query_to_models` realizes a multi-key sort as repeated stable
single-key passes over the reversed key list.  The lemmas here prove that
this equals one stable sort by the lexicographic combination of the key
comparisons, which is what the specification asserts. -/

theorem lexLe_eq_true_iff (p q : α → α → Bool) (a b : α) :
    lexLe p q a b = true ↔
      (p a b = true ∧ p b a = true ∧ q a b = true) ∨
      (p a b = true ∧ p b a = false) := by
  unfold lexLe
  cases hab : p a b <;> cases hba : p b a <;> simp

theorem lexLe_total (p q : α → α → Bool)
    (ptot : ∀ a b, p a b || p b a) (qtot : ∀ a b, q a b || q b a) (a b : α) :
    lexLe p q a b || lexLe p q b a := by
  unfold lexLe
  have hp := ptot a b
  have hq := qtot a b
  cases hab : p a b <;> cases hba : p b a <;> simp_all

theorem lexLe_trans (p q : α → α → Bool)
    (ptrans : ∀ a b c, p a b → p b c → p a c)
    (qtrans : ∀ a b c, q a b → q b c → q a c)
    (a b c : α) : lexLe p q a b → lexLe p q b c → lexLe p q a c := by
  simp only [lexLe_eq_true_iff]
  intro h1 h2
  rcases h1 with ⟨hab, hba, qab⟩ | ⟨hab, hba⟩ <;>
    rcases h2 with ⟨hbc, hcb, qbc⟩ | ⟨hbc, hcb⟩
  · exact Or.inl ⟨ptrans _ _ _ hab hbc, ptrans _ _ _ hcb hba,
      qtrans _ _ _ qab qbc⟩
  · refine Or.inr ⟨ptrans _ _ _ hab hbc, ?_⟩
    cases hca : p c a
    · rfl
    · exact absurd (ptrans _ _ _ hca hab) (by simp [hcb])
  · refine Or.inr ⟨ptrans _ _ _ hab hbc, ?_⟩
    cases hca : p c a
    · rfl
    · exact absurd (ptrans _ _ _ hbc hca) (by simp [hba])
  · refine Or.inr ⟨ptrans _ _ _ hab hbc, ?_⟩
    cases hca : p c a
    · rfl
    · exact absurd (ptrans _ _ _ hbc hca) (by simp [hba])

/-- Unpacking membership in `l.enum`: the tag is a valid index and the
payload is the element at that index. -/
theorem mem_enum_eq_getElem {l : List α} {i : Nat} {x : α}
    (h : (i, x) ∈ l.enum) : ∃ hi : i < l.length, x = l[i] := by
  obtain ⟨j, hj, he⟩ := List.mem_iff_getElem.mp h
  rw [List.getElem_enum] at he
  have hij : j = i := congrArg Prod.fst he
  subst hij
  exact ⟨by simpa using hj, (congrArg Prod.snd he).symm⟩

/-- Stability, phrased for composition: stably sorting a `q`-sorted list by
`p` produces a list sorted by the lexicographic combination `lexLe p q`. -/
theorem pairwise_lexLe_mergeSort (p q : α → α → Bool)
    (ptrans : ∀ a b c, p a b → p b c → p a c)
    (ptot : ∀ a b, p a b || p b a)
    (qtot : ∀ a b, q a b || q b a)
    (m : List α) (hm : m.Pairwise (fun a b => q a b = true)) :
    (m.mergeSort p).Pairwise (fun a b => lexLe p q a b = true) := by
  rw [← @List.mergeSort_enum _ p m, List.pairwise_map]
  have hs : (List.mergeSort m.enum (List.enumLE p)).Pairwise
      (fun a b => List.enumLE p a b = true) :=
    List.sorted_mergeSort (List.enumLE_trans ptrans) (List.enumLE_total ptot) _
  refine hs.imp_of_mem ?_
  intro a b ha hb hab
  rw [List.mem_mergeSort] at ha hb
  obtain ⟨i, x⟩ := a
  obtain ⟨j, y⟩ := b
  obtain ⟨hi, rfl⟩ := mem_enum_eq_getElem ha
  obtain ⟨hj, rfl⟩ := mem_enum_eq_getElem hb
  simp only [List.enumLE] at hab
  cases hpij : p m[i] m[j] with
  | false => simp [hpij] at hab
  | true =>
    cases hpji : p m[j] m[i] with
    | false => simp [lexLe, hpij, hpji]
    | true =>
      simp only [hpij, hpji, if_true] at hab
      have hij : i ≤ j := by simpa using hab
      have hqij : q m[i] m[j] = true := by
        rcases Nat.lt_or_ge i j with hlt | hge
        · exact List.pairwise_iff_getElem.mp hm i j hi hj hlt
        · have hieq : i = j := Nat.le_antisymm hij hge
          subst hieq
          have := qtot m[i] m[i]
          simpa using this
      simp [lexLe, hpij, hpji, hqij]

/-- Tagging commutes with the lexicographic combination: breaking
`lexLe p q`-ties by position is the same as comparing by `p` on payloads
with ties broken by the position-refined `q`. -/
theorem enumLE_lexLe (p q : α → α → Bool) (a b : Nat × α) :
    List.enumLE (lexLe p q) a b =
      lexLe (fun x y => p x.2 y.2) (List.enumLE q) a b := by
  simp only [List.enumLE, lexLe]
  rcases Bool.eq_false_or_eq_true (p a.2 b.2) with hpab | hpab <;>
    rcases Bool.eq_false_or_eq_true (p b.2 a.2) with hpba | hpba <;>
    rcases Bool.eq_false_or_eq_true (q a.2 b.2) with hqab | hqab <;>
    rcases Bool.eq_false_or_eq_true (q b.2 a.2) with hqba | hqba <;>
    simp [hpab, hpba, hqab, hqba]

/-- Composition of stable sorts: stably sorting by `q` and then stably
sorting by `p` is one stable sort by the lexicographic combination
`lexLe p q`.  This is the classical correctness fact behind multi-pass
(radix-style) stable sorting. -/
theorem mergeSort_mergeSort (p q : α → α → Bool)
    (ptrans : ∀ a b c, p a b → p b c → p a c)
    (ptot : ∀ a b, p a b || p b a)
    (qtrans : ∀ a b c, q a b → q b c → q a c)
    (qtot : ∀ a b, q a b || q b a)
    (l : List α) :
    (l.mergeSort q).mergeSort p = l.mergeSort (lexLe p q) := by
  rw [← @List.mergeSort_enum _ q l, ← @List.mergeSort_enum _ (lexLe p q) l]
  have hmap := @List.map_mergeSort (Nat × α) α (fun a b => p a.2 b.2) p
    (fun x => x.2) (List.mergeSort l.enum (List.enumLE q))
    (fun a _ b _ => rfl)
  rw [← hmap]
  apply congrArg (List.map (fun x : Nat × α => x.2))
  have hM2 : (List.mergeSort l.enum (List.enumLE q)).Pairwise
      (fun a b => List.enumLE q a b = true) :=
    List.sorted_mergeSort (List.enumLE_trans qtrans) (List.enumLE_total qtot) _
  have hs1 : (List.mergeSort (List.mergeSort l.enum (List.enumLE q))
      (fun a b => p a.2 b.2)).Pairwise
      (fun a b => List.enumLE (lexLe p q) a b = true) := by
    have hpl := pairwise_lexLe_mergeSort (fun a b : Nat × α => p a.2 b.2)
      (List.enumLE q) (fun a b c h1 h2 => ptrans _ _ _ h1 h2)
      (fun a b => ptot a.2 b.2) (List.enumLE_total qtot) _ hM2
    refine hpl.imp ?_
    intro a b h
    rw [enumLE_lexLe]
    exact h
  have hs2 : (List.mergeSort l.enum (List.enumLE (lexLe p q))).Pairwise
      (fun a b => List.enumLE (lexLe p q) a b = true) :=
    List.sorted_mergeSort (List.enumLE_trans (lexLe_trans p q ptrans qtrans))
      (List.enumLE_total (lexLe_total p q ptot qtot)) _
  have hperm : (List.mergeSort (List.mergeSort l.enum (List.enumLE q))
      (fun a b => p a.2 b.2)).Perm
      (List.mergeSort l.enum (List.enumLE (lexLe p q))) :=
    ((List.mergeSort_perm _ _).trans (List.mergeSort_perm _ _)).trans
      (List.mergeSort_perm _ _).symm
  refine List.Perm.eq_of_sorted ?_ hs1 hs2 hperm
  rintro ⟨i, x⟩ ⟨j, y⟩ hmem1 hmem2 h1 h2
  simp only [List.mem_mergeSort] at hmem1 hmem2
  obtain ⟨hi, rfl⟩ := mem_enum_eq_getElem hmem1
  obtain ⟨hj, rfl⟩ := mem_enum_eq_getElem hmem2
  simp only [List.enumLE] at h1 h2
  cases hxy : lexLe p q l[i] l[j] with
  | false => simp [hxy] at h1
  | true =>
    cases hyx : lexLe p q l[j] l[i] with
    | false => simp [hxy, hyx] at h2
    | true =>
      simp only [hxy, hyx, if_true] at h1 h2
      have hij : i = j :=
        Nat.le_antisymm (by simpa using h1) (by simpa using h2)
      subst hij
      rfl

/-! ### Success-path characterizations of the evaluator stages -/

theorem passLe_total (k : String) (a b : Model) :
    passLe k a b || passLe k b a := by
  rcases Bool.eq_false_or_eq_true (strStartsDash k) with hrev | hrev <;>
    simp only [passLe, hrev] <;> simp <;>
    exact (Bool.or_eq_true _ _).mp (value_le_total _ _)

theorem passLe_trans (k : String) (a b c : Model) :
    passLe k a b → passLe k b c → passLe k a c := by
  rcases Bool.eq_false_or_eq_true (strStartsDash k) with hrev | hrev <;>
    simp only [passLe, hrev] <;> simp <;>
    intro h1 h2 <;>
    first
      | exact value_le_trans _ _ _ h1 h2
      | exact value_le_trans _ _ _ h2 h1

theorem specLexLe_total (keys : List String) :
    ∀ a b : Model, specLexLe keys a b || specLexLe keys b a := by
  induction keys with
  | nil => intro a b; simp [specLexLe]
  | cons k rest ih =>
      exact lexLe_total (passLe k) (specLexLe rest) (passLe_total k) ih

theorem specLexLe_trans (keys : List String) :
    ∀ a b c : Model, specLexLe keys a b → specLexLe keys b c →
      specLexLe keys a c := by
  induction keys with
  | nil => intro a b c _ _; simp [specLexLe]
  | cons k rest ih =>
      exact lexLe_trans (passLe k) (specLexLe rest) (passLe_trans k) ih

theorem tagWithSortKey_ok (name : String) (l : List Model)
    (h : ∀ m ∈ l, (get_model_property (PyObj.model m) name).isOk = true) :
    tagWithSortKey name l =
      .ok (l.map (fun m => (m, modelSortValue m name))) := by
  induction l with
  | nil => rfl
  | cons m rest ih =>
      have hm := h m (List.mem_cons_self m rest)
      have hrest := ih (fun x hx => h x (List.mem_cons_of_mem m hx))
      cases hv : get_model_property (PyObj.model m) name with
      | error e => rw [hv] at hm; simp [Except.isOk, Except.toBool] at hm
      | ok v =>
          simp [tagWithSortKey, hv, hrest, modelSortValue, Except.bind, bind, pure, Except.pure]

theorem sort_by_property_ok (pname : String) (l : List Model)
    (h : ∀ m ∈ l, (get_model_property (PyObj.model m)
        (if strStartsDash pname then pname.drop 1 else pname)).isOk = true) :
    _sort_by_property_name l pname = .ok (l.mergeSort (passLe pname)) := by
  simp only [_sort_by_property_name]
  rw [tagWithSortKey_ok _ _ h]
  have hmap := @List.map_mergeSort (Model × Value) Model
    (fun a b =>
      if strStartsDash pname then Value.le b.2 a.2 else Value.le a.2 b.2)
    (passLe pname) Prod.fst
    (l.map fun m => (m, modelSortValue m
      (if strStartsDash pname then pname.drop 1 else pname)))
    (by
      intro a ha b hb
      obtain ⟨ma, _, rfl⟩ := List.mem_map.mp ha
      obtain ⟨mb, _, rfl⟩ := List.mem_map.mp hb
      simp [passLe])
  simp only [Except.bind, bind, pure, Except.pure]
  rw [hmap, List.map_map]
  have hid : (Prod.fst ∘ fun m : Model => (m, modelSortValue m
      (if strStartsDash pname then pname.drop 1 else pname))) = id := rfl
  rw [hid, List.map_id]

theorem pairwise_specLexLe_nil (l : List Model) :
    l.Pairwise (fun a b => specLexLe [] a b = true) := by
  induction l with
  | nil => exact List.Pairwise.nil
  | cons m rest ihp => exact List.Pairwise.cons (fun _ _ => rfl) ihp

theorem sortStage_eq_lex (keys : List String) (l : List Model)
    (h : ∀ m ∈ l, ∀ k ∈ keys, (get_model_property (PyObj.model m)
        (if strStartsDash k then k.drop 1 else k)).isOk = true) :
    sortStage keys l = .ok (l.mergeSort (specLexLe keys)) := by
  induction keys with
  | nil =>
      rw [List.mergeSort_of_sorted (pairwise_specLexLe_nil l)]
      rfl
  | cons k rest ih =>
      have hrest := ih (fun m hm k2 hk2 =>
        h m hm k2 (List.mem_cons_of_mem k hk2))
      have hk : ∀ m ∈ l.mergeSort (specLexLe rest),
          (get_model_property (PyObj.model m)
            (if strStartsDash k then k.drop 1 else k)).isOk = true := by
        intro m hm
        exact h m (List.mem_mergeSort.mp hm) k (List.mem_cons_self k rest)
      have hpass := sort_by_property_ok k (l.mergeSort (specLexLe rest)) hk
      have hcomp := mergeSort_mergeSort (passLe k) (specLexLe rest)
        (passLe_trans k) (passLe_total k)
        (specLexLe_trans rest) (specLexLe_total rest) l
      simp only [sortStage, hrest, Except.bind, bind]
      rw [hpass, hcomp]
      rfl

theorem exceptFilter_ok (p : Model → Except String Bool) (b : Model → Bool)
    (l : List Model) (h : ∀ m ∈ l, p m = .ok (b m)) :
    exceptFilter p l = .ok (l.filter b) := by
  induction l with
  | nil => rfl
  | cons m rest ih =>
      have hm := h m (List.mem_cons_self m rest)
      have hrest := ih (fun x hx => h x (List.mem_cons_of_mem m hx))
      cases hb : b m <;>
        simp [exceptFilter, hm, hrest, Except.bind, bind, pure, Except.pure,
          List.filter_cons, hb]

theorem evalFilters_ok (fs : List (String × String × Value)) (m : Model)
    (h : ∀ f ∈ fs, (_get_operator f.2.1).isOk = true ∧
        (get_model_property (PyObj.model m) f.1).isOk = true) :
    evalFilters fs m = .ok (fs.all (filterHolds m)) := by
  induction fs with
  | nil => rfl
  | cons f rest ih =>
      obtain ⟨n, c, v⟩ := f
      obtain ⟨hop, hpv⟩ := h _ (List.mem_cons_self _ rest)
      cases hoc : _get_operator c with
      | error e => rw [hoc] at hop; simp [Except.isOk, Except.toBool] at hop
      | ok op =>
          cases hpc : get_model_property (PyObj.model m) n with
          | error e => rw [hpc] at hpv; simp [Except.isOk, Except.toBool] at hpv
          | ok pv =>
              have hrest := ih (fun x hx => h x (List.mem_cons_of_mem _ hx))
              cases hap : op.apply pv v <;>
                simp [evalFilters, hoc, hpc, Except.bind, bind, pure, Except.pure,
                  filterHolds, List.all_cons, hrest, hap]

theorem renderParse (s : String) :
    (if (parseOrderKey s).2 then "-" else "") ++ (parseOrderKey s).1 = s := by
  rcases Bool.eq_false_or_eq_true (strStartsDash s) with hs | hs
  · have hp : parseOrderKey s = (s.drop 1, true) := by
      simp [parseOrderKey, hs]
    rw [hp]
    apply String.ext
    rw [String.data_append, String.data_drop]
    cases hd : s.data with
    | nil => simp [strStartsDash, hd] at hs
    | cons c rest =>
        simp [strStartsDash, hd] at hs
        subst hs
        have hdash : ("-" : String).data = ['-'] := rfl
        simp [hdash]
  · have hp : parseOrderKey s = (s, false) := by
      simp [parseOrderKey, hs]
    rw [hp]
    apply String.ext
    rw [String.data_append]
    simp

/-! ### Claim theorems -/

/-- C1: for every flat query with a non-empty order and every entity list,
the sort step of `apply_query_to_models` — realized as one full stable
single-key sort pass per signed key (ascending or descending per the key's
sign), iterating the order keys in reverse priority — equals the standard
lexicographic multi-key stable sort by the order keys in listed priority
(`List.mergeSort` by `specLexLe`, `mergeSort` being the stable sort); in
particular, the example entities `[(id 2, score 5), (id 1, score 5),
(id 3, score 9)]` under `kind="A", order=["-score","id"]` come out as
`[(id 3, score 9), (id 1, score 5), (id 2, score 5)]`.  The hypothesis `h`
states that every sorted entity has every (stripped) sort property, i.e.
that no key lookup raises. -/
theorem sort_passes_eq_lex_stable_sort (keys : List String) (l : List Model)
    (hne : keys ≠ [])
    (h : ∀ m ∈ l, ∀ k ∈ keys, (get_model_property (PyObj.model m)
        (if strStartsDash k then k.drop 1 else k)).isOk = true) :
    orderStage (some keys) l = .ok (l.mergeSort (specLexLe keys)) ∧
      apply_query_to_models exampleQuery exampleModels =
        .ok [exampleModelId3, exampleModelId1, exampleModelId2] := by
  constructor
  · rw [orderStage, if_pos hne]
    exact sortStage_eq_lex keys l h
  · have hdrop : ("-score" : String).drop 1 = "score" := rfl
    simp [apply_query_to_models, applyStages, exampleQuery, kindStage,
      namespaceStage, filterStage, orderStage, limitStage, sortStage,
      _sort_by_property_name, strStartsDash, tagWithSortKey,
      get_model_property, get_model_id, get_model_key, exampleModels,
      exampleModelId1, exampleModelId2, exampleModelId3, List.mergeSort,
      List.merge, Value.le, kindlessValidationMsg, hdrop, Except.bind,
      Except.map, bind, pure, Except.pure]

theorem sort_passes_eq_lex_stable_sort_witness :
    (["-score", "id"] ≠ ([] : List String)) ∧
    (orderStage (some ["-score", "id"]) exampleModels =
      .ok (exampleModels.mergeSort (specLexLe ["-score", "id"])) ∧
      apply_query_to_models exampleQuery exampleModels =
        .ok [exampleModelId3, exampleModelId1, exampleModelId2]) :=
  ⟨by decide,
   sort_passes_eq_lex_stable_sort ["-score", "id"] exampleModels
     (by decide) (by decide)⟩

/-- C3: for every flat query with absent (`None`) kind and an order other
than exactly `('__key__',)`, `apply_query_to_models` raises the validation
error before doing anything else; with kind `None` and order exactly
`('__key__',)` it does not raise it — it proceeds straight into the
filter/sort/limit stages. -/
theorem kindless_query_validation (q : BeamQuery) (l : List Model) :
    (q.kind = none → q.order ≠ some ["__key__"] →
      apply_query_to_models q l = .error kindlessValidationMsg) ∧
    (q.kind = none → q.order = some ["__key__"] →
      apply_query_to_models q l = applyStages q l) := by
  constructor
  · intro h1 h2
    simp [apply_query_to_models, h1, h2]
  · intro h1 h2
    simp [apply_query_to_models, h1, h2]

theorem kindless_query_validation_witness :
    (apply_query_to_models kindlessBadQuery [] =
      .error kindlessValidationMsg) ∧
    (apply_query_to_models kindlessGoodQuery [] =
      applyStages kindlessGoodQuery []) :=
  ⟨(kindless_query_validation kindlessBadQuery []).1 rfl (by decide),
   (kindless_query_validation kindlessGoodQuery []).2 rfl rfl⟩

/-- C4: `get_beam_query_from_ndb_query` sets the order to exactly
`('__key__',)` whenever the native query's kind is absent and no order was
derived from it; when the native query has an order specification, the
flattened form of that order is kept instead. -/
theorem default_order_injection (q : NdbQuery) (bq : BeamQuery)
    (hok : get_beam_query_from_ndb_query q = .ok bq) :
    (q.kind = none → q.orders = none → bq.order = some ["__key__"]) ∧
    (∀ o, q.orders = some o →
      bq.order = some (_get_beam_order_from_ndb_order o)) := by
  constructor
  · intro hkind horders
    cases hf : q.filters with
    | none =>
        simp only [get_beam_query_from_ndb_query, hf, hkind, horders,
          Except.bind, bind, pure, Except.pure, Except.ok.injEq,
          and_self, if_pos] at hok
        rw [← hok]
    | some fn =>
        cases hfl : _get_beam_filters_from_ndb_filter_node fn with
        | error e =>
            simp [get_beam_query_from_ndb_query, hf, hfl, Except.map,
              Except.bind, bind, pure, Except.pure] at hok
        | ok fs =>
            simp only [get_beam_query_from_ndb_query, hf, hfl, hkind,
              horders, Except.map, Except.bind, bind, pure, Except.pure,
              Except.ok.injEq, and_self, if_pos] at hok
            rw [← hok]
  · intro o ho
    cases hf : q.filters with
    | none =>
        simp only [get_beam_query_from_ndb_query, hf, ho, Except.bind, bind,
          pure, Except.pure, Except.ok.injEq] at hok
        rw [← hok]
        simp
    | some fn =>
        cases hfl : _get_beam_filters_from_ndb_filter_node fn with
        | error e =>
            simp [get_beam_query_from_ndb_query, hf, hfl, Except.map,
              Except.bind, bind, pure, Except.pure] at hok
        | ok fs =>
            simp only [get_beam_query_from_ndb_query, hf, hfl, ho,
              Except.map, Except.bind, bind, pure, Except.pure,
              Except.ok.injEq] at hok
            rw [← hok]
            simp

theorem default_order_injection_witness :
    defaultedBeamQuery.order = some ["__key__"] ∧
    orderedBeamQuery.order =
      some (_get_beam_order_from_ndb_order (DatastoreOrder.single "score"
        true)) :=
  ⟨(default_order_injection kindlessNdbQuery defaultedBeamQuery rfl).1
      rfl rfl,
   (default_order_injection orderedNdbQuery orderedBeamQuery rfl).2
      (DatastoreOrder.single "score" true) rfl⟩

set_option maxRecDepth 8192 in
/-- C5: filter flattening turns a single comparison node into its one
`(property, operator, value)` triple and a conjunction node into its list of
triples, and rejects every other node shape (the `DisjunctionNode`s produced
by `!=`, `IN` and `OR`) with an error naming the forbidden constructs and
the recommended workaround (multiple AND queries flattened into a single
PCollection). -/
theorem filter_flattening_cases (fn : FilterNode) :
    (∀ p op v, fn = FilterNode.comparison p op v →
      _get_beam_filters_from_ndb_filter_node fn = .ok [(p, op, v)]) ∧
    (∀ fs, fn = FilterNode.conjunction fs →
      _get_beam_filters_from_ndb_filter_node fn = .ok fs) ∧
    ((∀ p op v, fn ≠ FilterNode.comparison p op v) →
      (∀ fs, fn ≠ FilterNode.conjunction fs) →
      _get_beam_filters_from_ndb_filter_node fn =
        .error forbiddenFilterMsg) ∧
    ("!=".data <:+: forbiddenFilterMsg.data ∧
      "IN".data <:+: forbiddenFilterMsg.data ∧
      "OR".data <:+: forbiddenFilterMsg.data ∧
      "AND queries".data <:+: forbiddenFilterMsg.data) := by
  refine ⟨?_, ?_, ?_, by decide, by decide, by decide, by decide⟩
  · intro p op v h
    subst h
    rfl
  · intro fs h
    subst h
    rfl
  · intro h1 h2
    cases fn with
    | comparison p op v => exact absurd rfl (h1 p op v)
    | conjunction fs => exact absurd rfl (h2 fs)
    | disjunction nodes => rfl

theorem filter_flattening_cases_witness :
    _get_beam_filters_from_ndb_filter_node (FilterNode.disjunction []) =
      .error forbiddenFilterMsg :=
  (filter_flattening_cases (FilterNode.disjunction [])).2.2.1
    (fun p op v h => FilterNode.noConfusion h)
    (fun fs h => FilterNode.noConfusion h)

/-- C2: for a model whose key is assigned (with the NDB invariant that the
key's kind is the model's kind) and whose kind is registered,
`get_model_from_beam_entity ∘ get_beam_entity_from_model` reconstructs a
model with identical kind, id and property values. -/
theorem entity_roundtrip_preserves (project : String) (registry : List String)
    (m : Model) (k : NdbKey) (hk : m.key = some k) (hkind : k.kind = m.kind)
    (hreg : m.kind ∈ registry) :
    ∃ m2 : Model,
      (get_beam_entity_from_model project m).bind
          (get_model_from_beam_entity registry) = .ok m2 ∧
      get_model_kind (PyObj.model m2) = get_model_kind (PyObj.model m) ∧
      get_model_id (PyObj.model m2) = get_model_id (PyObj.model m) ∧
      m2.props = m.props := by
  refine ⟨Model.mk m.kind (some (NdbKey.mk m.kind k.id "")) m.props,
    ?_, rfl, ?_, rfl⟩
  · simp [get_beam_entity_from_model, hk, Except.bind, bind,
      get_model_from_beam_entity, BeamKey.clientKind, BeamKey.clientId,
      hkind, hreg]
  · simp [get_model_id, hk]

theorem entity_roundtrip_preserves_witness :
    ∃ m2 : Model,
      (get_beam_entity_from_model "proj" exampleModelId2).bind
          (get_model_from_beam_entity ["A"]) = .ok m2 ∧
      get_model_kind (PyObj.model m2) =
        get_model_kind (PyObj.model exampleModelId2) ∧
      get_model_id (PyObj.model m2) =
        get_model_id (PyObj.model exampleModelId2) ∧
      m2.props = exampleModelId2.props :=
  entity_roundtrip_preserves "proj" ["A"] exampleModelId2
    { kind := "A", id := 2, nspace := "" } rfl rfl (by decide)

/-- C6: the predicate-filter step of `apply_query_to_models` retains exactly
the entities satisfying ALL of the `(property, operator, value)` filters
(conjunction semantics), each filter's property value looked up through
`get_model_property` — which is what makes `"id"` and `"__key__"` supported
filter targets.  The hypothesis states that every operator is one of the
five supported symbols and every filtered property is present, i.e. that no
filter evaluation raises. -/
theorem predicate_filter_conjunction (fs : List (String × String × Value))
    (l : List Model) (hne : fs ≠ [])
    (h : ∀ m ∈ l, ∀ f ∈ fs, (_get_operator f.2.1).isOk = true ∧
        (get_model_property (PyObj.model m) f.1).isOk = true) :
    filterStage (some fs) l =
      .ok (l.filter (fun m => fs.all (filterHolds m))) := by
  simp only [filterStage]
  rw [if_pos hne]
  exact exceptFilter_ok _ _ l (fun m hm => evalFilters_ok fs m (h m hm))

theorem predicate_filter_conjunction_witness :
    filterStage (some [("score", "=", Value.vInt 5)]) exampleModels =
      .ok (exampleModels.filter
        (fun m => [("score", "=", Value.vInt 5)].all (filterHolds m))) :=
  predicate_filter_conjunction [("score", "=", Value.vInt 5)] exampleModels
    (by decide) (by decide)

/-- C7 counterexample: the limit step is guarded by Python truthiness
(`if query.limit:`), so a present limit of `0` — which the claim's "at most
N entities" would require to empty the list — truncates nothing: a
one-element list survives `apply_query_to_models` with `limit = 0`
untouched. -/
theorem limit_zero_not_truncated :
    limitZeroQuery.limit = some 0 ∧
    apply_query_to_models limitZeroQuery [exampleModelId2] =
      .ok [exampleModelId2] ∧
    ¬ (([exampleModelId2] : List Model).length ≤ 0) := by
  refine ⟨rfl, ?_, by decide⟩
  rfl

/-- C7 (amended): for every flat query with a present NONZERO limit `n`,
`apply_query_to_models` leaves at most `n` entities, and exactly the first
`n` of the list in final sorted order — the list the same query without its
limit produces. -/
theorem limit_truncation_nonzero (q : BeamQuery) (l r : List Model) (n : Nat)
    (hlim : q.limit = some n) (hn : n ≠ 0)
    (hok : apply_query_to_models q l = .ok r) :
    r.length ≤ n ∧
      ∃ full, apply_query_to_models (withoutLimit q) l = .ok full ∧
        r = full.take n := by
  unfold apply_query_to_models at hok ⊢
  by_cases hc : q.kind = none ∧ q.order ≠ some ["__key__"]
  · rw [if_pos hc] at hok
    exact absurd hok (by simp)
  · rw [if_neg hc] at hok
    have hc2 : ¬((withoutLimit q).kind = none ∧
        (withoutLimit q).order ≠ some ["__key__"]) := hc
    rw [if_neg hc2]
    simp only [applyStages, withoutLimit] at hok ⊢
    cases hns : namespaceStage q.nspace (kindStage q.kind l) with
    | error e => simp [Except.bind, bind, hns] at hok
    | ok l2 =>
        cases hfs : filterStage q.filters l2 with
        | error e => simp [Except.bind, bind, hns, hfs] at hok
        | ok l3 =>
            cases hord : orderStage q.order l3 with
            | error e => simp [Except.bind, bind, hns, hfs, hord] at hok
            | ok l4 =>
                simp only [Except.bind, bind, pure, Except.pure, hns, hfs,
                  hord, Except.ok.injEq] at hok
                rw [hlim] at hok
                simp only [limitStage, if_pos hn] at hok
                refine ⟨?_, l4, ?_, ?_⟩
                · rw [← hok]
                  simp [List.length_take]
                · simp [Except.bind, bind, pure, Except.pure, limitStage,
                    hns, hfs, hord]
                · exact hok.symm

theorem limit_truncation_nonzero_witness :
    ([exampleModelId2, exampleModelId1] : List Model).length ≤ 2 ∧
      ∃ full, apply_query_to_models (withoutLimit limitTwoQuery)
          exampleModels = .ok full ∧
        [exampleModelId2, exampleModelId1] = full.take 2 :=
  limit_truncation_nonzero limitTwoQuery exampleModels
    [exampleModelId2, exampleModelId1] 2 rfl (by decide) rfl

/-- C8: the property accessor's three cases — `"id"` delegates to the id
accessor (which yields `None` when the key is `None`), `"__key__"` yields
the key itself, any other name is an attribute lookup that fails when the
attribute is absent — and every lookup on a non-model argument fails. -/
theorem property_accessor_cases (obj : PyObj) (m : Model) (name d : String) :
    (get_model_property obj "id" = get_model_id obj) ∧
    (get_model_property obj "__key__" = get_model_key obj) ∧
    (m.key = none → get_model_id (PyObj.model m) = .ok Value.vNone) ∧
    (name ≠ "id" → name ≠ "__key__" →
      (∀ v, m.props.lookup name = some v →
        get_model_property (PyObj.model m) name = .ok v) ∧
      (m.props.lookup name = none →
        get_model_property (PyObj.model m) name =
          .error ("model object has no attribute " ++ name))) ∧
    (get_model_property (PyObj.nonModel d) name =
      .error (d ++ " is not a model instance")) := by
  refine ⟨rfl, rfl, ?_, ?_, ?_⟩
  · intro h
    simp [get_model_id, h]
  · intro h1 h2
    constructor
    · intro v hv
      simp [get_model_property, h1, h2, hv]
    · intro hv
      simp [get_model_property, h1, h2, hv]
  · by_cases hn1 : name = "id"
    · subst hn1; rfl
    · by_cases hn2 : name = "__key__"
      · subst hn2; rfl
      · simp [get_model_property, hn1, hn2]

theorem property_accessor_cases_witness :
    (get_model_property (PyObj.model keylessModel) "id" =
      get_model_id (PyObj.model keylessModel)) ∧
    (get_model_id (PyObj.model keylessModel) = .ok Value.vNone) ∧
    (get_model_property (PyObj.model exampleModelId2) "score" =
      .ok (Value.vInt 5)) ∧
    (get_model_property (PyObj.nonModel "3") "score" =
      .error ("3" ++ " is not a model instance")) :=
  ⟨(property_accessor_cases (PyObj.model keylessModel) keylessModel
      "x" "r").1,
   (property_accessor_cases (PyObj.model keylessModel) keylessModel
      "x" "r").2.2.1 rfl,
   ((property_accessor_cases (PyObj.model exampleModelId2) exampleModelId2
      "score" "r").2.2.2.1 (by decide) (by decide)).1 (Value.vInt 5) rfl,
   (property_accessor_cases (PyObj.model keylessModel) keylessModel "score"
      "3").2.2.2.2⟩

/-- C9 (spec-modelled): the reconstruction of a native query from a flat
query copies kind and namespace, and its filter tree and composite order
flatten back — through the module's own flattening functions — to exactly
the flat query's filters and order. -/
theorem from_flat_query_reconstruction (q : BeamQuery) :
    (get_ndb_query_from_beam_query q).kind = q.kind ∧
    (get_ndb_query_from_beam_query q).nspace = q.nspace ∧
    (∀ fs, q.filters = some fs →
      ∃ fn, (get_ndb_query_from_beam_query q).filters = some fn ∧
        _get_beam_filters_from_ndb_filter_node fn = .ok fs) ∧
    (∀ keys, q.order = some keys →
      ∃ o, (get_ndb_query_from_beam_query q).orders = some o ∧
        _get_beam_order_from_ndb_order o = keys) := by
  refine ⟨rfl, rfl, ?_, ?_⟩
  · intro fs hfs
    exact ⟨FilterNode.conjunction fs,
      by simp [get_ndb_query_from_beam_query, hfs], rfl⟩
  · intro keys hkeys
    refine ⟨DatastoreOrder.composite (keys.map parseOrderKey),
      by simp [get_ndb_query_from_beam_query, hkeys], ?_⟩
    simp only [_get_beam_order_from_ndb_order]
    rw [List.map_map]
    have hfun : ((fun o : String × Bool =>
        (if o.2 then "-" else "") ++ o.1) ∘ parseOrderKey) = id := by
      funext s
      exact renderParse s
    rw [hfun, List.map_id]

theorem from_flat_query_reconstruction_witness :
    (∃ o, (get_ndb_query_from_beam_query exampleQuery).orders = some o ∧
      _get_beam_order_from_ndb_order o = ["-score", "id"]) ∧
    (∃ fn, (get_ndb_query_from_beam_query filteredQuery).filters = some fn ∧
      _get_beam_filters_from_ndb_filter_node fn =
        .ok [("score", "=", Value.vInt 5)]) :=
  ⟨(from_flat_query_reconstruction exampleQuery).2.2.2 ["-score", "id"] rfl,
   (from_flat_query_reconstruction filteredQuery).2.2.1
     [("score", "=", Value.vInt 5)] rfl⟩

/-- C10: an empty-string namespace is falsy, so the namespace pass retains
every entity — `apply_query_to_models` behaves exactly as with no namespace
at all; likewise an empty-string kind makes the kind pass filter nothing. -/
theorem empty_namespace_no_filtering (q : BeamQuery) (l : List Model) :
    (q.nspace = some "" →
      namespaceStage q.nspace l = .ok l ∧
      apply_query_to_models q l =
        apply_query_to_models { q with nspace := none } l) ∧
    (q.kind = some "" → kindStage q.kind l = l) := by
  constructor
  · intro h
    refine ⟨by simp [namespaceStage, h], ?_⟩
    have hk : ({ q with nspace := none } : BeamQuery).kind = q.kind := rfl
    have ho : ({ q with nspace := none } : BeamQuery).order = q.order := rfl
    have hf : ({ q with nspace := none } : BeamQuery).filters = q.filters :=
      rfl
    have hl : ({ q with nspace := none } : BeamQuery).limit = q.limit := rfl
    simp only [apply_query_to_models, applyStages, hk, ho, hf, hl]
    split
    · rfl
    · simp [namespaceStage, h]
  · intro h
    simp [kindStage, h]

theorem empty_namespace_no_filtering_witness :
    (namespaceStage emptyNamespaceQuery.nspace exampleModels =
      .ok exampleModels ∧
      apply_query_to_models emptyNamespaceQuery exampleModels =
        apply_query_to_models { emptyNamespaceQuery with nspace := none }
          exampleModels) ∧
    kindStage emptyKindQuery.kind exampleModels = exampleModels :=
  ⟨(empty_namespace_no_filtering emptyNamespaceQuery exampleModels).1 rfl,
   (empty_namespace_no_filtering emptyKindQuery exampleModels).2 rfl⟩

end JobUtils
